import Mathlib

/-!
Verification of the sfdx-falcon toolbelt core (task-runner, error model,
debug facility, validators, stdio-to-JSON utility) against its
natural-language specification.

The JavaScript sources under `src/scripts/js/sfdx-falcon/` are shallowly
embedded below.  JavaScript strings are embedded as `List Char`; JavaScript
values as the inductive `JsValue`; thrown values as the inductive `JsErr`
(an `Except JsErr` result models a function that can throw).  External
library functions that the sources call (`JSON.parse`, lodash `isEmpty`,
`strip-ansi`) are modelled by executable Lean functions that follow the
documented behavior of those libraries; each such model carries a doc
comment stating what it models.  V8-generated `stack` strings are
environment data and are left out of the model (no modelled claim
mentions them).
-/

/-- JavaScript strings, embedded as lists of characters. -/
abbrev JsStr := List Char

/-- Converts a Lean string literal to the embedded JavaScript string type. -/
def jstr (s : String) : JsStr := s.data

/-- JS `String.prototype.indexOf` for a single-character needle:
index of the first occurrence, `-1` when absent. -/
def jsIndexOf (s : JsStr) (c : Char) : Int :=
  match s.findIdx? (fun x => x = c) with
  | some i => (i : Int)
  | none => -1

/-- JS `String.prototype.lastIndexOf` for a single-character needle:
index of the last occurrence, `-1` when absent. -/
def jsLastIndexOf (s : JsStr) (c : Char) : Int :=
  match s.reverse.findIdx? (fun x => x = c) with
  | some i => (s.length : Int) - 1 - (i : Int)
  | none => -1

/-- JS `String.prototype.substring(a, b)`: both arguments are clamped to
`[0, length]` and swapped when `a > b`. -/
def jsSubstring (s : JsStr) (a b : Int) : JsStr :=
  let n : Int := (s.length : Int)
  let a1 := min (max a 0) n
  let b1 := min (max b 0) n
  let lo := (min a1 b1).toNat
  let hi := (max a1 b1).toNat
  (s.take hi).drop lo

/-- The characters JS `String.prototype.trim` removes (the common WhiteSpace
and LineTerminator characters). -/
def jsWhitespaceChar (c : Char) : Bool :=
  c = ' ' || c = '\t' || c = '\n' || c = '\u000B' || c = '\u000C' ||
  c = '\u000D' || c = '\u00A0' || c = '\uFEFF' || c = '\u2028' || c = '\u2029'

/-- JS `String.prototype.trim`. -/
def jsTrim (s : JsStr) : JsStr :=
  ((s.dropWhile jsWhitespaceChar).reverse.dropWhile jsWhitespaceChar).reverse

/-- A JS number as produced by `JSON.parse`: the exact decimal value
`mantissa * 10 ^ exp10`.  JSON number literals are decimal, so every parsed
value is exactly representable this way; IEEE-754 double rounding (which only
shows past 17 significant digits) is not modelled. -/
structure JsNumber where
  mantissa : Int
  exp10 : Int
deriving DecidableEq, Repr

/-- A JS value: the JSON-representable values plus `undefined` and opaque
function values (tagged by a number, since only `typeof f` and truthiness of
functions matter to the embedded code). -/
inductive JsValue where
  | undefined
  | null
  | bool (b : Bool)
  | num (n : JsNumber)
  | str (s : JsStr)
  | arr (elems : List JsValue)
  | obj (fields : List (JsStr × JsValue))
  | func (tag : Nat)
deriving Repr

/-- A JS integer value. -/
def jsInt (n : Int) : JsValue := .num ⟨n, 0⟩

/-- JS truthiness.  JSON-parsed numbers are never `NaN`, so a number is falsy
exactly when its mantissa is zero. -/
def truthy : JsValue → Bool
  | .undefined => false
  | .null => false
  | .bool b => b
  | .num n => !(n.mantissa = 0)
  | .str s => !s.isEmpty
  | .arr _ => true
  | .obj _ => true
  | .func _ => true

/-- JS `typeof`. -/
def jsTypeof : JsValue → String
  | .undefined => "undefined"
  | .null => "object"
  | .bool _ => "boolean"
  | .num _ => "number"
  | .str _ => "string"
  | .arr _ => "object"
  | .obj _ => "object"
  | .func _ => "function"

/-- First value stored under key `k` (object fields built by this embedding
have unique keys, see `objInsert`). -/
def objGet (fields : List (JsStr × JsValue)) (k : JsStr) : Option JsValue :=
  match fields with
  | [] => none
  | (k1, v) :: rest => if k1 = k then some v else objGet rest k

/-- JS property assignment on a plain object: overwrite in place when the key
exists (keeping property order), append otherwise.  `JSON.parse` resolves
duplicate keys the same way, so this is also the parser's field insertion. -/
def objInsert (fields : List (JsStr × JsValue)) (k : JsStr) (v : JsValue) :
    List (JsStr × JsValue) :=
  match fields with
  | [] => [(k, v)]
  | (k1, v1) :: rest =>
    if k1 = k then (k1, v) :: rest else (k1, v1) :: objInsert rest k v

/-- Reads an own property of an object, `undefined` when the key is absent or
the value is not an object.  (Total variant, for receivers known non-null.) -/
def jsGetOwnD (v : JsValue) (k : JsStr) : JsValue :=
  match v with
  | .obj fs => (objGet fs k).getD .undefined
  | _ => .undefined

/-- Modelled from lodash `isEmpty`: `true` for `null`, `undefined`, every
number, boolean and function, the empty string/array/object; `false` for a
non-empty string, array or object. -/
def lodashIsEmpty : JsValue → Bool
  | .undefined => true
  | .null => true
  | .bool _ => true
  | .num _ => true
  | .func _ => true
  | .str s => s.isEmpty
  | .arr l => l.isEmpty
  | .obj fs => fs.isEmpty

/-- JS `a || b`. -/
def jsOr (a b : JsValue) : JsValue := if truthy a then a else b

/-- Decimal digits of a natural number, most significant first. -/
def natDigits (n : Nat) : JsStr :=
  (Nat.toDigits 10 n)

/-- Renders a `JsNumber` the way JS `String(n)` renders the corresponding
double for ordinary magnitudes: canonical decimal, no trailing fractional
zeros.  (JS switches to exponential notation only at extreme magnitudes,
which does not arise in the embedded code paths.) -/
def jsNumToString (n : JsNumber) : JsStr :=
  -- normalize: drop factors of 10 shared between mantissa and a negative exponent
  let rec norm (m : Int) (e : Int) (fuel : Nat) : Int × Int :=
    match fuel with
    | 0 => (m, e)
    | fuel + 1 => if e < 0 ∧ m % 10 = 0 ∧ m ≠ 0 then norm (m / 10) (e + 1) fuel else (m, e)
  let (m, e) := norm n.mantissa n.exp10 (n.exp10.natAbs + 1)
  if m = 0 then jstr "0"
  else
    let sign : JsStr := if m < 0 then ['-'] else []
    let digits := natDigits m.natAbs
    if e ≥ 0 then
      sign ++ digits ++ List.replicate e.toNat '0'
    else
      let k := (-e).toNat
      if digits.length > k then
        sign ++ digits.take (digits.length - k) ++ '.' :: digits.drop (digits.length - k)
      else
        sign ++ '0' :: '.' :: List.replicate (k - digits.length) '0' ++ digits

/-- String coercion of a JS value as used in template literals and array
joins.  Arrays render as their elements joined by commas with `null` and
`undefined` rendered empty; plain objects render as the standard object tag.
Function source text is environment data, modelled by a fixed tag. -/
def jsToString (fuel : Nat) (v : JsValue) : JsStr :=
  match fuel, v with
  | _, .undefined => jstr "undefined"
  | _, .null => jstr "null"
  | _, .bool b => if b then jstr "true" else jstr "false"
  | _, .num n => jsNumToString n
  | _, .str s => s
  | _, .obj _ => jstr "[object Object]"
  | _, .func _ => jstr "function"
  | 0, .arr _ => []
  | fuel + 1, .arr l =>
    let parts := l.map (fun e =>
      match e with
      | .null => ([] : JsStr)
      | .undefined => []
      | x => jsToString fuel x)
    match parts with
    | [] => []
    | p :: ps => ps.foldl (fun acc q => acc ++ ',' :: q) p

/-- Whether a trimmed string matches the JS string numeric literal grammar
(decimal with optional sign, fraction, exponent; `Infinity`; unsigned
hexadecimal, octal or binary).  Used to model the coercion in `isNaN`. -/
def recognizesNumeric (s : JsStr) : Bool :=
  let decTail : JsStr → Bool := fun t =>
    -- [exponent part] at the very end
    let expOk : JsStr → Bool := fun u =>
      match u with
      | [] => true
      | e :: u1 =>
        (e = 'e' || e = 'E') &&
          (let u2 := match u1 with
                     | c :: u2 => if c = '+' || c = '-' then u2 else u1
                     | [] => u1
           !(u2.isEmpty) && u2.all Char.isDigit)
    let intPart := t.takeWhile Char.isDigit
    let afterInt := t.dropWhile Char.isDigit
    match afterInt with
    | '.' :: u =>
      let fracPart := u.takeWhile Char.isDigit
      let afterFrac := u.dropWhile Char.isDigit
      (!(intPart.isEmpty) || !(fracPart.isEmpty)) && expOk afterFrac
    | _ => !(intPart.isEmpty) && expOk afterInt
  let radixTail : Char → (Char → Bool) → JsStr → Bool := fun tag pred t =>
    match t with
    | '0' :: x :: u => (x = tag || x = tag.toUpper) && !(u.isEmpty) && u.all pred
    | _ => false
  let unsigned : JsStr → Bool := fun t =>
    t = jstr "Infinity" || decTail t ||
    radixTail 'x' (fun c => c.isDigit || ('a' ≤ c && c ≤ 'f') || ('A' ≤ c && c ≤ 'F')) t ||
    radixTail 'o' (fun c => '0' ≤ c && c ≤ '7') t ||
    radixTail 'b' (fun c => c = '0' || c = '1') t
  match s with
  | c :: rest => if c = '+' || c = '-' then (decTail rest || rest = jstr "Infinity") else unsigned s
  | [] => false

/-- JS `isNaN(String(... ))` on a string: coercion trims whitespace, the
empty string converts to `0`, and anything outside the numeric literal
grammar converts to `NaN`. -/
def strIsNaN (s : JsStr) : Bool :=
  let t := jsTrim s
  if t.isEmpty then false else !(recognizesNumeric t)

/-- JS global `isNaN` applied to a JS value: `undefined`, plain objects and
functions coerce to `NaN`; `null`, booleans and numbers do not; strings and
arrays coerce through the string grammar.  `fuel` bounds the array-join
recursion (any bound above the value's nesting depth is exact). -/
def jsIsNaN (fuel : Nat) (v : JsValue) : Bool :=
  match v with
  | .undefined => true
  | .null => false
  | .bool _ => false
  | .num _ => false
  | .func _ => true
  | .obj _ => true
  | .str s => strIsNaN s
  | .arr l => strIsNaN (jsToString fuel (.arr l))

/-- JSON whitespace accepted by `JSON.parse`. -/
def isJsonWs (c : Char) : Bool :=
  c = ' ' || c = '\t' || c = '\n' || c = '\r'

/-- Drops leading JSON whitespace. -/
def skipJsonWs (s : JsStr) : JsStr := s.dropWhile isJsonWs

/-- Whether `s` begins with `p`. -/
def leadsWith : JsStr → JsStr → Bool
  | _, [] => true
  | [], _ :: _ => false
  | c :: s, p :: ps => c = p && leadsWith s ps

/-- Numeric value of one hexadecimal digit. -/
def hexDigitVal (c : Char) : Option Nat :=
  if '0' ≤ c && c ≤ '9' then some (c.toNat - 48)
  else if 'a' ≤ c && c ≤ 'f' then some (c.toNat - 87)
  else if 'A' ≤ c && c ≤ 'F' then some (c.toNat - 55)
  else none

/-- Reads exactly four hexadecimal digits off the front of `s` and returns
their value with the remainder. -/
def readHex4 (s : JsStr) : Option (Nat × JsStr) :=
  match s with
  | a :: b :: c :: d :: rest =>
    (hexDigitVal a).bind fun x =>
      (hexDigitVal b).bind fun y =>
        (hexDigitVal c).bind fun z =>
          (hexDigitVal d).map fun w =>
            (x * 4096 + y * 256 + z * 16 + w, rest)
  | _ => none

/-- Body of a JSON string after the opening quote: processes escapes, rejects
raw control characters, returns the decoded characters plus the remainder
after the closing quote.  Surrogate pairs combine into one scalar; a lone
surrogate decodes to U+FFFD (a documented model approximation: Lean `Char`
holds scalars, while a JS string may hold a lone UTF-16 surrogate). -/
def parseJsonStringBody (fuel : Nat) (s : JsStr) (acc : JsStr) :
    Option (JsStr × JsStr) :=
  match fuel with
  | 0 => none
  | fuel + 1 =>
    match s with
    | [] => none
    | '"' :: rest => some (acc, rest)
    | '\\' :: e :: rest =>
      match e with
      | '"' => parseJsonStringBody fuel rest (acc ++ ['"'])
      | '\\' => parseJsonStringBody fuel rest (acc ++ ['\\'])
      | '/' => parseJsonStringBody fuel rest (acc ++ ['/'])
      | 'b' => parseJsonStringBody fuel rest (acc ++ ['\u0008'])
      | 'f' => parseJsonStringBody fuel rest (acc ++ ['\u000C'])
      | 'n' => parseJsonStringBody fuel rest (acc ++ ['\n'])
      | 'r' => parseJsonStringBody fuel rest (acc ++ ['\u000D'])
      | 't' => parseJsonStringBody fuel rest (acc ++ ['\t'])
      | 'u' =>
        match readHex4 rest with
        | none => none
        | some (n, rest1) =>
          if 0xD800 ≤ n ∧ n < 0xDC00 then
            match rest1 with
            | '\\' :: 'u' :: rest2 =>
              match readHex4 rest2 with
              | some (m, rest3) =>
                if 0xDC00 ≤ m ∧ m < 0xE000 then
                  parseJsonStringBody fuel rest3
                    (acc ++ [Char.ofNat (0x10000 + (n - 0xD800) * 0x400 + (m - 0xDC00))])
                else parseJsonStringBody fuel rest1 (acc ++ ['�'])
              | none => parseJsonStringBody fuel rest1 (acc ++ ['�'])
            | _ => parseJsonStringBody fuel rest1 (acc ++ ['�'])
          else if 0xDC00 ≤ n ∧ n < 0xE000 then
            parseJsonStringBody fuel rest1 (acc ++ ['�'])
          else
            parseJsonStringBody fuel rest1 (acc ++ [Char.ofNat n])
      | _ => none
    | c :: rest =>
      if c.toNat < 0x20 then none else parseJsonStringBody fuel rest (acc ++ [c])

/-- Natural number named by a list of decimal digits. -/
def digitsToNat (ds : JsStr) : Nat :=
  ds.foldl (fun acc c => acc * 10 + (c.toNat - '0'.toNat)) 0

/-- A JSON number literal: optional minus, integer part without leading
zeros, optional fraction, optional exponent.  Returns the exact decimal
value and the remainder. -/
def parseJsonNumber (s : JsStr) : Option (JsValue × JsStr) :=
  let (neg, s1) := match s with
                   | '-' :: t => (true, t)
                   | _ => (false, s)
  let intDigits := s1.takeWhile Char.isDigit
  let afterInt := s1.dropWhile Char.isDigit
  if intDigits.isEmpty then none
  else if intDigits.length > 1 ∧ intDigits.headD '0' = '0' then none
  else
    let (fracDigits, afterFrac) :=
      match afterInt with
      | '.' :: t => (t.takeWhile Char.isDigit, t.dropWhile Char.isDigit)
      | _ => ([], afterInt)
    if (match afterInt with | '.' :: _ => fracDigits.isEmpty | _ => false) then none
    else
      let expParse : Option (Int × JsStr) :=
        match afterFrac with
        | e :: t =>
          if e = 'e' || e = 'E' then
            let (esign, t1) := match t with
                               | '+' :: u => ((1 : Int), u)
                               | '-' :: u => ((-1 : Int), u)
                               | _ => ((1 : Int), t)
            let eDigits := t1.takeWhile Char.isDigit
            if eDigits.isEmpty then none
            else some (esign * (digitsToNat eDigits : Int), t1.dropWhile Char.isDigit)
          else some (0, afterFrac)
        | [] => some (0, afterFrac)
      match expParse with
      | none => none
      | some (expVal, rest) =>
        let mag : Int := (digitsToNat (intDigits ++ fracDigits) : Int)
        let mantissa := if neg then -mag else mag
        some (.num ⟨mantissa, expVal - (fracDigits.length : Int)⟩, rest)

/-- Parser state: a value, the tail of an array, or the tail of an object. -/
inductive JsonMode where
  | val
  | elems (acc : List JsValue)
  | fields (acc : List (JsStr × JsValue))

/-- Recursive core of the `JSON.parse` model. -/
def parseJson (fuel : Nat) (mode : JsonMode) (s : JsStr) :
    Option (JsValue × JsStr) :=
  match fuel with
  | 0 => none
  | fuel + 1 =>
    match mode with
    | .val =>
      let s := skipJsonWs s
      if leadsWith s (jstr "null") then some (.null, s.drop 4)
      else if leadsWith s (jstr "true") then some (.bool true, s.drop 4)
      else if leadsWith s (jstr "false") then some (.bool false, s.drop 5)
      else match s with
      | '"' :: rest =>
        (parseJsonStringBody fuel rest []).map (fun p => (.str p.1, p.2))
      | '[' :: rest =>
        let r := skipJsonWs rest
        match r with
        | ']' :: r2 => some (.arr [], r2)
        | _ => parseJson fuel (.elems []) r
      | '{' :: rest =>
        let r := skipJsonWs rest
        match r with
        | '}' :: r2 => some (.obj [], r2)
        | _ => parseJson fuel (.fields []) r
      | _ => parseJsonNumber s
    | .elems acc =>
      match parseJson fuel .val s with
      | none => none
      | some (v, r) =>
        let r1 := skipJsonWs r
        match r1 with
        | ',' :: r2 => parseJson fuel (.elems (acc ++ [v])) r2
        | ']' :: r2 => some (.arr (acc ++ [v]), r2)
        | _ => none
    | .fields acc =>
      match s with
      | '"' :: r =>
        match parseJsonStringBody fuel r [] with
        | none => none
        | some (k, r1) =>
          match skipJsonWs r1 with
          | ':' :: r3 =>
            match parseJson fuel .val r3 with
            | none => none
            | some (v, r4) =>
              match skipJsonWs r4 with
              | ',' :: r6 => parseJson fuel (.fields (objInsert acc k v)) (skipJsonWs r6)
              | '}' :: r6 => some (.obj (objInsert acc k v), r6)
              | _ => none
          | _ => none
      | _ => none

/-- Modelled from `JSON.parse`: `some` the parsed value, `none` when the
call would throw a `SyntaxError`. -/
def jsonParse (s : JsStr) : Option JsValue :=
  match parseJson (4 * s.length + 16) .val s with
  | some (v, rest) => if (skipJsonWs rest).isEmpty then some v else none
  | none => none

/-- A thrown JS value in the embedded code: either an `SfdxFalconError`
instance (`falcon`) or a native error (`plain`, e.g. `TypeError`,
`ReferenceError`, `SyntaxError`).  An `SfdxFalconError` carries `message`,
`source`, the `cause` property, the `data` and `_detail` objects and the
`_resultStack` string.  It has no modelled `name`: the class never assigns
`this.name` (its `super` call passes the name where `Error` expects an
options object, and a string is ignored there), so the runtime `name` is
inherited.  V8 `stack` strings are environment data and are not modelled. -/
inductive JsErr where
  | falcon (message : JsStr) (source : JsStr) (cause : Option JsErr)
      (data : JsValue) (detail : JsValue) (resultStack : JsStr)
  | plain (name : JsStr) (message : JsStr) (cause : Option JsErr)

/-- A native `TypeError` value. -/
def typeError (msg : String) : JsErr := .plain (jstr "TypeError") (jstr msg) none

/-- Whether a thrown value is an `SfdxFalconError` (JS `instanceof`). -/
def isFalconError : JsErr → Bool
  | .falcon _ _ _ _ _ _ => true
  | .plain _ _ _ => false

/-- JS `Object.prototype.hasOwnProperty` for the keys the embedded code
tests: own fields of plain objects; `length` on arrays and strings;
`false` on boxed primitives.  (Array index keys never arise here.) -/
def jsHasOwnProperty (v : JsValue) (k : JsStr) : Bool :=
  match v with
  | .obj fs => (objGet fs k).isSome
  | .arr _ => k = jstr "length"
  | .str _ => k = jstr "length"
  | _ => false

/-- From `utilities/json.mjs`: `safeParse(contentToParse)`.  The empty string
is replaced by the text of an empty object before parsing; an unparseable
input yields an object with the single key `unparsed`.  (The function is only
ever called on strings.) -/
def safeParse (contentToParse : JsStr) : JsValue :=
  let contentToParse := if contentToParse.isEmpty then ['{', '}'] else contentToParse
  match jsonParse contentToParse with
  | some v => v
  | none => .obj [(jstr "unparsed", .str contentToParse)]

/-- From `utilities/json.mjs`: `findJson(contentToSearch)`.  Extracts the
substring from the first `\x7b` to the last `\x7d` (with JS `substring`
clamping and swapping), feeds it to `safeParse`, then tests
`foundJson.hasOwnProperty(...)`.  When `safeParse` returns JS `null` (the
extracted fragment was the literal `null`), that member access throws a
`TypeError`, which this model surfaces as `Except.error`. -/
def findJson (contentToSearch : JsStr) : Except JsErr JsValue :=
  let possibleJson := jsSubstring contentToSearch
    (jsIndexOf contentToSearch '{') (jsLastIndexOf contentToSearch '}' + 1)
  let foundJson := safeParse possibleJson
  match foundJson with
  | .null => .error (typeError "Cannot read properties of null")
  | v => .ok (if jsHasOwnProperty v (jstr "unparsed") then JsValue.null else v)

/-- JS behavior of calling `findJson` on an arbitrary value: every non-string
receiver lacks either `indexOf` or `substring`, so the call throws a
`TypeError` (this is what happens inside `SfdxCliError` when the parsed
payload has no `stack` string). -/
def findJsonOn (v : JsValue) : Except JsErr JsValue :=
  match v with
  | .str s => findJson s
  | _ => .error (typeError "contentToSearch has no string methods")

/-- A single-character class regex combinator set, used to model the
`ansi-regex` pattern that the external `strip-ansi` package applies. -/
inductive RX where
  | cls (p : Char → Bool)
  | seq (a b : RX)
  | alt (a b : RX)
  | opt (a : RX)
  | star (a : RX)

/-- Backtracking matcher: the list of all remainders after a match of `r` at
the start of `s`, in JS preference order (left alternative first, greedy
repetition longest first).  The head of the list is the match JS selects.
`fuel` bounds the recursion depth; it is decremented on every call, so any
value above the maximal derivation depth is exact. -/
def rxMatch (fuel : Nat) (r : RX) (s : JsStr) : List JsStr :=
  match fuel with
  | 0 => []
  | fuel + 1 =>
    match r with
    | .cls p =>
      match s with
      | [] => []
      | c :: rest => if p c then [rest] else []
    | .seq a b => (rxMatch fuel a s).flatMap (fun t => rxMatch fuel b t)
    | .alt a b => rxMatch fuel a s ++ rxMatch fuel b s
    | .opt a => rxMatch fuel a s ++ [s]
    | .star a =>
      ((rxMatch fuel a s).filter (fun t => t.length < s.length)).flatMap
        (fun t => rxMatch fuel (.star a) t) ++ [s]

/-- The characters that can begin an ANSI escape sequence. -/
def ansiStartChar (c : Char) : Bool := c = '\u001B' || c = '\u009B'

/-- The bracket/intro characters after the escape byte in `ansi-regex`. -/
def ansiIntroChar (c : Char) : Bool :=
  c = '[' || c = ']' || c = '(' || c = ')' || c = '#' || c = ';' || c = '?'

/-- The link-parameter character class of `ansi-regex`. -/
def ansiLinkChar (c : Char) : Bool :=
  c = '-' || c.isAlpha || c.isDigit || c = '/' || c = '#' || c = '&' ||
  c = '.' || c = ':' || c = '=' || c = '?' || c = '%' || c = '@' ||
  c = '~' || c = '_'

/-- The final byte class of a CSI sequence in `ansi-regex`. -/
def ansiFinalByte (c : Char) : Bool :=
  c.isDigit || ('A' ≤ c && c ≤ 'P') || ('R' ≤ c && c ≤ 'T') || c = 'Z' ||
  c = 'c' || ('f' ≤ c && c ≤ 'n') || ('q' ≤ c && c ≤ 'u') || c = 'y' ||
  c = '=' || c = '>' || c = '<' || c = '~'

/-- One or more repetitions. -/
def rxPlus (r : RX) : RX := .seq r (.star r)

/-- One to four decimal digits, greedy. -/
def rxDigits14 : RX :=
  .seq (.cls Char.isDigit) (.opt (.seq (.cls Char.isDigit)
    (.opt (.seq (.cls Char.isDigit) (.opt (.cls Char.isDigit))))))

/-- Modelled from the `ansi-regex` package (the pattern `strip-ansi`
removes): an escape byte, intro characters, then either a
string-terminator-ended sequence or a parameterized final byte. -/
def ansiRX : RX :=
  let st : RX := .alt (.cls (fun c => c = '\u0007'))
    (.alt (.seq (.cls (fun c => c = '\u001B')) (.cls (fun c => c = '\\')))
      (.cls (fun c => c = '\u009C')))
  let altA : RX := .star (.seq (.cls (fun c => c = ';')) (rxPlus (.cls ansiLinkChar)))
  let altB : RX := .seq (rxPlus (.cls (fun c => c.isAlpha || c.isDigit)))
    (.star (.seq (.cls (fun c => c = ';')) (.star (.cls ansiLinkChar))))
  let csi1 : RX := .seq (.opt (.alt altA altB)) st
  let csi2 : RX := .seq
    (.opt (.seq rxDigits14 (.star (.seq (.cls (fun c => c = ';'))
      (.opt rxDigits14)))))
    (.cls ansiFinalByte)
  .seq (.cls ansiStartChar) (.seq (.star (.cls ansiIntroChar)) (.alt csi1 csi2))

/-- Fuel that exceeds any derivation depth of `ansiRX` on `s` (the pattern
has nesting depth below 16 and every repetition consumes a character). -/
def ansiRxFuel (s : JsStr) : Nat := 64 * (s.length + 2)

/-- Scanner for the `strip-ansi` model: a match can only begin at an escape
byte; a match is removed and scanning resumes after it, otherwise the
character is kept. -/
def stripAnsiGo (fuel : Nat) (s : JsStr) : JsStr :=
  match fuel with
  | 0 => s
  | fuel + 1 =>
    match s with
    | [] => []
    | c :: rest =>
      if ansiStartChar c then
        match rxMatch (ansiRxFuel s) ansiRX s with
        | t :: _ => stripAnsiGo fuel t
        | [] => c :: stripAnsiGo fuel rest
      else c :: stripAnsiGo fuel rest

/-- Modelled from the external `strip-ansi` package: removes every match of
the ANSI escape-sequence pattern.  On strings without U+001B and U+009B it
is the identity. -/
def stripAnsi (s : JsStr) : JsStr := stripAnsiGo (s.length + 1) s

/-- From `utilities/json.mjs`: `stdioToJson(ioBuffer)` strips ANSI escape
sequences and then searches the buffer with `findJson` (whose possible
`TypeError` propagates). -/
def stdioToJson (ioBuffer : JsStr) : Except JsErr JsValue :=
  let cleanBuffer := stripAnsi ioBuffer
  findJson cleanBuffer

/-- The `resultStack` read that `SfdxFalconError`'s constructor performs on
its `cause` argument (`causeError.resultStack || ''`): an `SfdxFalconError`
exposes its `_resultStack`; any other error yields the empty string. -/
def getResultStack : JsErr → JsStr
  | .falcon _ _ _ _ _ rs => rs
  | .plain _ _ _ => []

/-- The `cause` property of an error value. -/
def getCause : JsErr → Option JsErr
  | .falcon _ _ c _ _ _ => c
  | .plain _ _ c => c

/-- The `message` property of an error value. -/
def errMessage : JsErr → JsStr
  | .falcon m _ _ _ _ _ => m
  | .plain _ m _ => m

/-- The `data` property of an `SfdxFalconError` (empty object otherwise). -/
def errData : JsErr → JsValue
  | .falcon _ _ _ d _ _ => d
  | .plain _ _ _ => .obj []

/-- The `detail` getter of an `SfdxFalconError` (empty object otherwise). -/
def errDetail : JsErr → JsValue
  | .falcon _ _ _ _ dt _ => dt
  | .plain _ _ _ => .obj []

/-- Modelled from lodash `isEmpty` applied to an error instance: it checks
own enumerable keys.  An `SfdxFalconError` always has own enumerable fields
(`data`, `source`, `_detail`, the three info objects, `_resultStack`), so it
is never empty; a native error's `message` and `stack` are own but not
enumerable, so it is empty. -/
def lodashIsEmptyErr : JsErr → Bool
  | .falcon _ _ _ _ _ _ => false
  | .plain _ _ _ => true

/-- From `error/index.mjs`: the `SfdxFalconError` constructor.  The computed
`thisName` (`name` defaulted) and `actions`/`exitCode` are passed to
`super`, where the native `Error` constructor expects `(message, options)`;
a string in the options slot installs nothing, and the constructor body
never assigns `this.cause` or `this.name`, so the constructed error carries
no `cause` property.  The body initializes `data` and `_detail` to empty
objects and copies `resultStack` from the `cause` argument.  (The three
`SfdxFalconErrorInfo` members are omitted: no claim mentions them.) -/
def SfdxFalconError.construct (message : JsStr) (name : Option JsStr := none)
    (source : JsStr := jstr "Unhandled Exception") (cause : Option JsErr := none) :
    JsErr :=
  let _thisName : JsStr := match name with
                           | some n => if n.isEmpty then jstr "SfdxFalconError" else n
                           | none => jstr "SfdxFalconError"
  .falcon message source none (.obj []) (.obj [])
    (match cause with
     | some causeError => getResultStack causeError
     | none => [])

/-- From `error/index.mjs`: the `rootCause` getter.  Walks `cause` links
while the current error has a truthy `cause` that lodash `isEmpty` reports
non-empty, and returns the last error reached. -/
def SfdxFalconError.rootCause : JsErr → JsErr
  | .falcon m s (some c) d dt rs =>
    if lodashIsEmptyErr c = false then SfdxFalconError.rootCause c
    else .falcon m s (some c) d dt rs
  | .plain n m (some c) =>
    if lodashIsEmptyErr c = false then SfdxFalconError.rootCause c
    else .plain n m (some c)
  | e => e

/-- A value as it arrives at `SfdxFalconError.wrap`: an error instance or
any other JS value. -/
inductive JsAny where
  | val (v : JsValue)
  | err (e : JsErr)

/-- From `error/index.mjs`: `SfdxFalconError.wrap(error, source)`.  An
`SfdxFalconError` is returned unchanged; a native error is copied into a new
`SfdxFalconError` (the splice of the original V8 stack text under the new
one is not modelled); any other value is attached as `data.unknownObj` of a
fresh generic error. -/
def SfdxFalconError.wrap (error : JsAny) (source : JsStr) : JsErr :=
  match error with
  | .err (.falcon m s c d dt rs) => .falcon m s c d dt rs
  | .err (.plain n m c) =>
    let _ := c
    SfdxFalconError.construct m (some n) source none
  | .val v =>
    match SfdxFalconError.construct
        (jstr "Additional error detail saved to the SfdxFalconError.data Object.")
        (some (jstr "UnknownError")) with
    | .falcon m s c _ dt rs => .falcon m s c (.obj [(jstr "unknownObj", v)]) dt rs
    | e => e

/-- Property read with JS semantics: throws a `TypeError` on `null` and
`undefined` receivers, yields the own field or `undefined` on objects, and
`undefined` on boxed primitives for the keys the embedded code reads. -/
def jsGetProp (v : JsValue) (k : JsStr) : Except JsErr JsValue :=
  match v with
  | .null => .error (typeError "Cannot read properties of null")
  | .undefined => .error (typeError "Cannot read properties of undefined")
  | .obj fs => .ok ((objGet fs k).getD .undefined)
  | .arr l => .ok (if k = jstr "length" then jsInt l.length else .undefined)
  | .str s => .ok (if k = jstr "length" then jsInt s.length else .undefined)
  | _ => .ok .undefined

/-- Property assignment with strict-mode JS semantics: assigning to a
property of a primitive throws a `TypeError`.  (In the one embedded call
site the receiver is a parsed JSON object; the array case cannot be reached
there and is modelled as a no-op.) -/
def jsSetProp (v : JsValue) (k : JsStr) (x : JsValue) : Except JsErr JsValue :=
  match v with
  | .obj fs => .ok (.obj (objInsert fs k x))
  | .arr l => .ok (.arr l)
  | _ => .error (typeError "Cannot create property on a primitive")

/-- The `cliError` detail object built by the `SfdxCliError` constructor. -/
structure CliError where
  command : JsValue
  stdout : JsValue
  stderr : JsValue
  name : JsValue
  message : JsValue
  status : JsValue
  actions : JsValue
  warnings : JsValue
  stack : JsValue
  result : JsValue
deriving Repr

/-- The `try` block of the `SfdxCliError` constructor: parse stdout as JSON
and read the standard SFDX CLI error fields off the parsed payload.  Any
exception along the way (the `JSON.parse` `SyntaxError`, a `TypeError` from
reading a field of a `null` payload, or the `TypeError` raised inside
`findJson` when the payload has no `stack` string) is the `Except.error`
case, which the constructor's `catch` turns into the unparseable shape. -/
def SfdxCliError.tryParse (sfdxCommandString stdoutBuffer stderrBuffer : JsStr) :
    Except JsErr CliError := do
  let parsedError ←
    match jsonParse stdoutBuffer with
    | some v => Except.ok v
    | none => Except.error (.plain (jstr "SyntaxError") (jstr "Unexpected token in JSON") none)
  let command := jsOr (.str sfdxCommandString) (.str (jstr "Command String Not Provided"))
  let stdout := jsOr (.str stdoutBuffer) (.str [])
  let stderr := jsOr (.str stderrBuffer) (.str [])
  let nameV ← jsGetProp parsedError (jstr "name")
  let name := jsOr nameV (.str (jstr "UnknownCliError"))
  let messageV ← jsGetProp parsedError (jstr "message")
  let message := jsOr messageV
    (.str (jstr "Unknown CLI Error (see \x27cliError.result.rawResult\x27 for original CLI response)"))
  let statusV ← jsGetProp parsedError (jstr "status")
  let status := if jsIsNaN (stdoutBuffer.length + 1) statusV then jsInt 1 else statusV
  let actionsV ← jsGetProp parsedError (jstr "actions")
  let actions0 : List JsValue := match actionsV with
                                 | .arr l => l
                                 | _ => []
  let actionV ← jsGetProp parsedError (jstr "action")
  let actions1 := if truthy actionV then actions0 ++ [actionV] else actions0
  let warningsV ← jsGetProp parsedError (jstr "warnings")
  let warnings := jsOr warningsV (.arr [])
  let stackV ← jsGetProp parsedError (jstr "stack")
  let stack := jsOr stackV (.str [])
  let resultV ← jsGetProp parsedError (jstr "result")
  if truthy resultV then
    return { command, stdout, stderr, name, message, status,
             actions := .arr actions1, warnings, stack, result := resultV }
  else
    let stackV2 ← jsGetProp parsedError (jstr "stack")
    let parsedStack ← findJsonOn stackV2
    let parsedError2 ←
      if truthy parsedStack then jsSetProp parsedError (jstr "stack") parsedStack
      else pure parsedError
    return { command, stdout, stderr, name, message, status,
             actions := .arr actions1, warnings, stack,
             result := .obj [(jstr "rawResult", parsedError2)] }

/-- An `SfdxCliError` instance: the underlying `SfdxFalconError` part, the
`cliError` detail object, and `this.actions` (assigned only when the
collected action list is non-empty). -/
structure SfdxCliErrorModel where
  base : JsErr
  cliError : CliError
  actions : Option JsValue

/-- From `error/index.mjs`: the `SfdxCliError` constructor.  The `catch`
branch replaces every `cliError` field with the unparseable shape; the
composed message is the caller message, a period and the `cliError`
message; collected actions are copied to `this.actions` when non-empty. -/
def SfdxCliError.construct (sfdxCommandString stdoutBuffer stderrBuffer : JsStr)
    (message : JsStr := jstr "Unknown CLI Error") (source : JsStr := []) :
    SfdxCliErrorModel :=
  let cliError : CliError :=
    match SfdxCliError.tryParse sfdxCommandString stdoutBuffer stderrBuffer with
    | .ok ce => ce
    | .error _ =>
      { command := jsOr (.str sfdxCommandString) (.str (jstr "Command String Not Provided"))
        stdout := jsOr (.str stdoutBuffer) (.str [])
        stderr := jsOr (.str stderrBuffer) (.str [])
        name := .str (jstr "UnparseableCliError")
        message := .str (jstr "Unparseable CLI Error (see \x27cliError.result.rawResult\x27 for raw error)")
        status := jsInt 999
        actions := .arr []
        warnings := .arr []
        stack := .str (jstr "Unparseable CLI Error (see \x27cliError.result.rawResult\x27 for raw error)")
        result := .obj [(jstr "rawResult", .str stdoutBuffer)] }
  let falconMessage :=
    message ++ jstr ". " ++ jsToString (stdoutBuffer.length + 1) cliError.message
  { base := SfdxFalconError.construct falconMessage (some (jstr "SfdxCliError")) source none
    cliError := cliError
    actions := if lodashIsEmpty cliError.actions = false then some cliError.actions else none }

/-- The `shellError` detail object built by the `ShellError` constructor. -/
structure ShellErrDetail where
  command : JsValue
  code : JsValue
  signal : JsValue
  stdout : JsValue
  stderr : JsValue
  message : JsValue
deriving Repr

/-- A `ShellError` instance: the underlying `SfdxFalconError` part and the
`shellError` detail object. -/
structure ShellErrorModel where
  base : JsErr
  shellError : ShellErrDetail

/-- From `error/index.mjs`: the `ShellError` constructor.  When the caller
supplies no message, the message is `stdErrBuffer.substring(0,
stdErrBuffer.indexOf(newline))` for a non-empty stderr string, else the same
for stdout, else a synthesized `Unknown Shell Error` string built from the
exit code and signal. -/
def ShellError.construct (command : JsValue) (code : JsValue) (signal : JsValue)
    (stdErrBuffer : JsValue) (stdOutBuffer : JsValue := .null)
    (source : JsStr := []) (message : JsStr := []) : ShellErrorModel :=
  let synthesized := jstr "Unknown Shell Error (code=" ++ jsToString 8 code ++
    jstr ", signal=" ++ jsToString 8 signal ++ jstr ")"
  let message :=
    if message.isEmpty = false then message
    else if (match stdErrBuffer with
             | .str s => !s.isEmpty
             | _ => false) then
      (match stdErrBuffer with
       | .str s => jsSubstring s 0 (jsIndexOf s '\n')
       | _ => [])
    else if (match stdOutBuffer with
             | .str s => !s.isEmpty
             | _ => false) then
      (match stdOutBuffer with
       | .str s => jsSubstring s 0 (jsIndexOf s '\n')
       | _ => [])
    else synthesized
  { base := SfdxFalconError.construct message (some (jstr "ShellError")) source none
    shellError := { command, code, signal, stdout := stdOutBuffer,
                    stderr := stdErrBuffer, message := .str message } }

/-- From `validators/type-validator.mjs`: `isInvalidObject`. -/
def isInvalidObject (arg : JsValue) (excludeArray : Bool := false) : Bool :=
  if excludeArray && (match arg with
                      | .arr _ => true
                      | _ => false) then true
  else !(jsTypeof arg = "object")

/-- From `validators/type-validator.mjs`: `isNullInvalidObject`. -/
def isNullInvalidObject (arg : JsValue) (excludeArray : Bool := false) : Bool :=
  isInvalidObject arg excludeArray ||
  (match arg with
   | .null => true
   | _ => false)

/-- From `validators/type-validator.mjs`: `isEmptyNullInvalidObject`. -/
def isEmptyNullInvalidObject (arg : JsValue) (excludeArray : Bool := false) : Bool :=
  isInvalidObject arg excludeArray ||
  (match arg with
   | .null => true
   | _ => false) ||
  lodashIsEmpty arg

/-- From `validators/type-validator.mjs`: `isEmptyNullInvalidString`. -/
def isEmptyNullInvalidString (arg : JsValue) : Bool :=
  !(jsTypeof arg = "string") ||
  (match arg with
   | .null => true
   | _ => false) ||
  (match arg with
   | .str s => s.isEmpty
   | _ => false)

/-- From `validators/type-validator.mjs`: `isInvalidFunction`. -/
def isInvalidFunction (arg : JsValue) : Bool :=
  !(jsTypeof arg = "function")

/-- From `validators/type-validator.mjs`: `getObjectNameOrPrimitiveType`.
For a non-null value of primitive type `object` the constructor name
(`Object` or `Array` for the embedded values), otherwise the `typeof`
string, each with a leading space. -/
def getObjectNameOrPrimitiveType (arg : JsValue) : JsStr :=
  match arg with
  | .obj _ => ' ' :: jstr "Object"
  | .arr _ => ' ' :: jstr "Array"
  | v => ' ' :: (jsTypeof v).data

/-- From `validators/type-validator.mjs`: `getNullOrEmpty`. -/
def getNullOrEmpty (arg : JsValue) : JsStr :=
  match arg with
  | .null => jstr " a NULL"
  | v =>
    if (jsTypeof v = "object" ∨ jsTypeof v = "string") ∧ lodashIsEmpty v then
      jstr " an empty"
    else []

/-- From `validators/type-validator.mjs`: `getArgumentName`. -/
def getArgumentName (argName : JsValue) : JsStr :=
  if isEmptyNullInvalidString argName then jstr "the argument"
  else match argName with
       | .str s => s
       | _ => []

/-- From `validators/type-validator.mjs`: `errMsgEmptyNullInvalidString`
(including the source's `by got` typo). -/
def errMsgEmptyNullInvalidString (arg argName : JsValue) : JsStr :=
  jstr "Expected " ++ getArgumentName argName ++
  jstr " to be a non-null, non-empty string by got" ++ getNullOrEmpty arg ++
  getObjectNameOrPrimitiveType arg ++ jstr " instead."

/-- From `validators/type-validator.mjs`: `errMsgInvalidFunction`. -/
def errMsgInvalidFunction (arg argName : JsValue) : JsStr :=
  jstr "Expected " ++ getArgumentName argName ++ jstr " to be a function but got" ++
  getNullOrEmpty arg ++ getObjectNameOrPrimitiveType arg ++ jstr " instead."

/-- From `validators/type-validator.mjs`: `errMsgNullInvalidObject`.  Its
template string reads the identifier `excludeArray`, which is not a
parameter of this function and is not defined at module scope, so in the
module's strict-mode code every call evaluates `getArgumentName(argName)`
and then throws a `ReferenceError`. -/
def errMsgNullInvalidObject (arg argName : JsValue) : Except JsErr JsStr :=
  let _ := getArgumentName argName
  let _ := arg
  .error (.plain (jstr "ReferenceError") (jstr "excludeArray is not defined") none)

/-- From `validators/type-validator.mjs`: `throwOnEmptyNullInvalidString`. -/
def throwOnEmptyNullInvalidString (arg : JsValue) (dbgNsExt : JsStr)
    (argName : JsValue) : Except JsErr Unit :=
  if isEmptyNullInvalidString arg then
    .error (SfdxFalconError.construct (errMsgEmptyNullInvalidString arg argName)
      (some (jstr "TypeError")) dbgNsExt none)
  else .ok ()

/-- From `validators/type-validator.mjs`: `throwOnInvalidFunction`. -/
def throwOnInvalidFunction (arg : JsValue) (dbgNsExt : JsStr)
    (argName : JsValue) : Except JsErr Unit :=
  if isInvalidFunction arg then
    .error (SfdxFalconError.construct (errMsgInvalidFunction arg argName)
      (some (jstr "TypeError")) dbgNsExt none)
  else .ok ()

/-- From `validators/type-validator.mjs`: `throwOnNullInvalidObject`.  The
non-string `argName` and non-boolean `excludeArray` coercions come first;
when the predicate reports the argument invalid the function evaluates
`errMsgNullInvalidObject`, whose `ReferenceError` escapes in place of the
intended `SfdxFalconError`. -/
def throwOnNullInvalidObject (arg : JsValue) (dbgNsExt : JsStr)
    (argName : JsValue) (excludeArray : JsValue := .bool false) :
    Except JsErr Unit :=
  let argName := if jsTypeof argName = "string" then argName else .str []
  let excludeArray := if jsTypeof excludeArray = "boolean" then excludeArray else .bool false
  let ea : Bool := match excludeArray with
                   | .bool b => b
                   | _ => false
  if isNullInvalidObject arg ea then
    match errMsgNullInvalidObject arg argName with
    | .error e => .error e
    | .ok m => .error (SfdxFalconError.construct m (some (jstr "TypeError")) dbgNsExt none)
  else .ok ()

/-- JS `split` on the colon character: `""` splits to one empty group, a
trailing colon yields a trailing empty group. -/
def splitOnColon : JsStr → List JsStr
  | [] => [[]]
  | c :: rest =>
    match splitOnColon rest with
    | [] => [[c]]
    | g :: gs => if c = ':' then [] :: g :: gs else (c :: g) :: gs

/-- Joins groups with a colon (the inverse of `splitOnColon`). -/
def joinColon : List JsStr → JsStr
  | [] => []
  | [g] => g
  | g :: gs => g ++ ':' :: joinColon gs

/-- JS `Map.get`: the stored value, or nothing. -/
def mapGet (m : List (JsStr × Bool)) (k : JsStr) : Option Bool :=
  match m with
  | [] => none
  | (k1, b) :: rest => if k1 = k then some b else mapGet rest k

/-- JS `Map.set`: overwrite in place or append. -/
def mapSet (m : List (JsStr × Bool)) (k : JsStr) (b : Bool) : List (JsStr × Bool) :=
  match m with
  | [] => [(k, b)]
  | (k1, b1) :: rest =>
    if k1 = k then (k1, b) :: rest else (k1, b1) :: mapSet rest k b

/-- The loop of `SfdxFalconDebug.checkEnabled`: test each cumulative
colon-joined group against the enabled-namespace map. -/
def SfdxFalconDebug.checkEnabledAux (m : List (JsStr × Bool)) :
    List JsStr → JsStr → Bool
  | [], _ => false
  | g :: gs, acc =>
    let t := acc ++ g
    if (mapGet m t).getD false then true
    else SfdxFalconDebug.checkEnabledAux m gs (t ++ [':'])

/-- From `debug/index.mjs`: `SfdxFalconDebug.checkEnabled(namespace)` over an
explicit enabled-namespace map (the class keeps it in a static field). -/
def SfdxFalconDebug.checkEnabled (m : List (JsStr × Bool)) (ns : JsStr) : Bool :=
  SfdxFalconDebug.checkEnabledAux m (splitOnColon ns) []

/-- From `debug/index.mjs`: `SfdxFalconDebug.enableDebuggers(namespaces)`:
each namespace is trimmed and set to `true` in the map.  (The `debugDepth`
assignment and console banner do not affect the map.) -/
def SfdxFalconDebug.enableDebuggers (m : List (JsStr × Bool))
    (namespaces : List JsStr) : List (JsStr × Bool) :=
  namespaces.foldl (fun acc ns => mapSet acc (jsTrim ns) true) m

/-- The embedded `Listr` instance: a task list and the options it was
constructed with (execution is runtime behavior outside this model). -/
structure ListrModel where
  taskList : List JsValue
  options : JsValue

/-- A `TaskRunner` instance: shared context, options, the `Listr` object and
the `isRunning` flag. -/
structure TaskRunnerInst where
  ctx : JsValue
  options : JsValue
  tasks : ListrModel
  isRunning : Bool

/-- The process-wide static state of `TaskRunner`: the singleton slot. -/
structure TRGlobal where
  trInstance : Option TaskRunnerInst

/-- JS object spread of two values: the own enumerable fields of the first,
overridden by those of the second. -/
def jsSpread (a b : JsValue) : JsValue :=
  let fa := match a with
            | .obj fs => fs
            | _ => []
  let fb := match b with
            | .obj fs => fs
            | _ => []
  .obj (fb.foldl (fun acc kv => objInsert acc kv.1 kv.2) fa)

/-- The default options object of the `TaskRunner` constructor. -/
def defaultTROptions : JsValue :=
  .obj [(jstr "concurrent", .bool false), (jstr "exitOnError", .bool true),
        (jstr "collectErrors", .str (jstr "minimal")),
        (jstr "forceColor", .bool true), (jstr "forceTTY", .bool true)]

/-- From `task-runner/index.mjs`: the `TaskRunner` constructor as a function
of the static singleton slot.  The singleton check is the first statement:
when an instance exists the constructor throws before assigning anything,
and the returned global state is the input state.  On success the new
instance is installed in the slot. -/
def TaskRunner.construct (options : JsValue) (g : TRGlobal) :
    Except JsErr TaskRunnerInst × TRGlobal :=
  if g.trInstance.isSome then
    (.error (SfdxFalconError.construct
      (jstr "An instance of TaskRunner already exists. Use TaskRunner.getInstance() instead of new TaskRunner().")
      (some (jstr "TaskRunner Error"))), g)
  else
    let ctx := JsValue.obj [(jstr "commandStrings", .arr [])]
    let options0 := match options with
                    | .undefined => defaultTROptions
                    | .null => defaultTROptions
                    | o => o
    let options1 := jsSpread options0 (.obj [(jstr "ctx", ctx)])
    let inst : TaskRunnerInst :=
      { ctx := ctx, options := options1,
        tasks := { taskList := [], options := options1 }, isRunning := false }
    (.ok inst, { trInstance := some inst })

/-- From `task-runner/index.mjs`: `TaskRunner.getInstance()` returns the
existing singleton or constructs one with no options. -/
def TaskRunner.getInstance (g : TRGlobal) : Except JsErr TaskRunnerInst × TRGlobal :=
  match g.trInstance with
  | some i => (.ok i, g)
  | none => TaskRunner.construct .undefined g

/-- From `utilities/sfdx.mjs`: `isSfCliCommandString`, the test of the regex
that accepts `sf ` or `sfdx ` as the first word, case-insensitively, after
any leading spaces. -/
def isSfCliCommandString (stringToTest : JsStr) : Bool :=
  let t := (stringToTest.dropWhile (fun c => c = ' ')).map Char.toLower
  leadsWith t (jstr "sf ") || leadsWith t (jstr "sfdx ")

/-- The `Listr` task object that `buildListrTask` builds from an `SfdxTask`:
its `title` and `concurrent` come from the instance; the `task` closure
executes the command at run time and is outside this model.  The
`throwOnEmptyNullInvalidObject` guard at its entry receives the freshly
constructed instance, which always has own enumerable fields, so it cannot
fire. -/
structure ListrTaskModel where
  title : JsValue
  concurrent : JsValue

/-- An `SfdxTask` instance after construction. -/
structure SfdxTaskModel where
  title : JsValue
  commandString : JsValue
  options : JsValue
  onSuccess : JsValue
  onError : JsValue
  suppressErrors : JsValue
  renderStdioOnError : JsValue
  concurrent : JsValue
  lisrTask : ListrTaskModel

/-- From `task-runner/sfdx-task.mjs`: the `SfdxTask` constructor.  Arguments
are validated (title and command string non-empty strings, options a
non-null non-array object, the two handlers functions when truthy, the
command string an `sf`/`sfdx` command); then the option defaults are spread
under the caller options, the command string is trimmed and suffixed with
the JSON flag, and the three policy flags are coerced with a
truthy-conditional to the booleans `true`/`false`. -/
def SfdxTask.construct (title commandString : JsValue)
    (options : JsValue := .obj []) : Except JsErr SfdxTaskModel := do
  let localDbgNs := jstr "TaskRunner:SfdxTask:constructor"
  throwOnEmptyNullInvalidString title localDbgNs (.str (jstr "title"))
  throwOnEmptyNullInvalidString commandString localDbgNs (.str (jstr "commandString"))
  throwOnNullInvalidObject options localDbgNs (.str (jstr "options")) (.bool true)
  let onS := jsGetOwnD options (jstr "onSuccess")
  if truthy onS then
    throwOnInvalidFunction onS localDbgNs (.str (jstr "options.onSuccess"))
  let onE := jsGetOwnD options (jstr "onError")
  if truthy onE then
    throwOnInvalidFunction onE localDbgNs (.str (jstr "options.onError"))
  let cmdStr : JsStr := match commandString with
                        | .str s => s
                        | _ => []
  if isSfCliCommandString cmdStr ≠ true then
    throw (SfdxFalconError.construct
      (jstr "Invalid Command String: |-->" ++ cmdStr ++
       jstr "<--|   SfdxTask objects can only be constructed with \x27sf\x27 or \x27sfdx\x27 command strings. For other commands, please construct a CliTask object.")
      (some (jstr "Invalid SFDX Command String")) localDbgNs none)
  let optionsMerged := jsSpread
    (.obj [(jstr "suppressErrors", .bool false),
           (jstr "renderStdioOnError", .bool false),
           (jstr "concurrent", .bool false),
           (jstr "onSuccess", .null), (jstr "onError", .null)])
    options
  let suppressErrors := JsValue.bool (truthy (jsGetOwnD optionsMerged (jstr "suppressErrors")))
  let renderStdioOnError := JsValue.bool (truthy (jsGetOwnD optionsMerged (jstr "renderStdioOnError")))
  let concurrent := JsValue.bool (truthy (jsGetOwnD optionsMerged (jstr "concurrent")))
  return { title := title
           commandString := .str (jsTrim cmdStr ++ jstr " --json")
           options := optionsMerged
           onSuccess := jsGetOwnD optionsMerged (jstr "onSuccess")
           onError := jsGetOwnD optionsMerged (jstr "onError")
           suppressErrors, renderStdioOnError, concurrent
           lisrTask := { title := title, concurrent := concurrent } }

/-- Whether a value, if an object, has pairwise-distinct keys (every object a
JS program can hold satisfies this; the embedded `JsValue` type also admits
ill-formed field lists, which this predicate excludes). -/
def objKeysNodup : JsValue → Prop
  | .obj fs => (fs.map Prod.fst).Nodup
  | _ => True

/-- The shared context object a fresh `TaskRunner` builds. -/
def trCtxExample : JsValue := .obj [(jstr "commandStrings", .arr [])]

/-- The options object a fresh `TaskRunner` built with no options holds. -/
def trOptionsExample : JsValue :=
  .obj [(jstr "concurrent", .bool false), (jstr "exitOnError", .bool true),
        (jstr "collectErrors", .str (jstr "minimal")),
        (jstr "forceColor", .bool true), (jstr "forceTTY", .bool true),
        (jstr "ctx", trCtxExample)]

/-- The `TaskRunner` instance produced by constructing against an empty
singleton slot with no options. -/
def taskRunnerExample : TaskRunnerInst :=
  { ctx := trCtxExample, options := trOptionsExample,
    tasks := { taskList := [], options := trOptionsExample },
    isRunning := false }

/-- The global state after that construction. -/
def trGlobalExample : TRGlobal := { trInstance := some taskRunnerExample }

/-- A concrete options object exercising the truthy coercion. -/
def sfdxTaskOptsExample : JsValue := .obj [(jstr "suppressErrors", jsInt 1)]

/-- The `SfdxTask` instance produced from title `t`, command `sf org list`
and options `sfdxTaskOptsExample`. -/
def sfdxTaskExample : SfdxTaskModel :=
  { title := .str (jstr "t")
    commandString := .str (jstr "sf org list --json")
    options := .obj [(jstr "suppressErrors", jsInt 1),
                     (jstr "renderStdioOnError", .bool false),
                     (jstr "concurrent", .bool false),
                     (jstr "onSuccess", .null), (jstr "onError", .null)]
    onSuccess := .null
    onError := .null
    suppressErrors := .bool true
    renderStdioOnError := .bool false
    concurrent := .bool false
    lisrTask := { title := .str (jstr "t"), concurrent := .bool false } }

theorem splitOnColon_ne_nil (l : JsStr) : splitOnColon l ≠ [] := by
  induction l with
  | nil => simp [splitOnColon]
  | cons c rest ih =>
    cases h : splitOnColon rest with
    | nil => exact absurd h ih
    | cons g gs =>
      simp only [splitOnColon, h]
      split <;> simp

theorem joinColon_splitOnColon (l : JsStr) : joinColon (splitOnColon l) = l := by
  induction l with
  | nil => rfl
  | cons c rest ih =>
    cases h : splitOnColon rest with
    | nil => exact absurd h (splitOnColon_ne_nil rest)
    | cons g gs =>
      rw [h] at ih
      simp only [splitOnColon, h]
      by_cases hc : c = ':'
      · subst hc
        simp only [if_pos rfl]
        cases gs with
        | nil => simpa [joinColon] using ih
        | cons g2 gs2 => simpa [joinColon] using ih
      · simp only [if_neg hc]
        cases gs with
        | nil => simpa [joinColon] using congrArg (c :: ·) ih
        | cons g2 gs2 =>
          simp only [joinColon] at ih ⊢
          simpa using congrArg (c :: ·) ih

theorem splitOnColon_append (x y : JsStr) :
    splitOnColon (x ++ ':' :: y) = splitOnColon x ++ splitOnColon y := by
  induction x with
  | nil =>
    cases h : splitOnColon y with
    | nil => exact absurd h (splitOnColon_ne_nil y)
    | cons g gs => simp [splitOnColon, h]
  | cons c x ih =>
    cases h : splitOnColon x with
    | nil => exact absurd h (splitOnColon_ne_nil x)
    | cons g gs =>
      have h2 : splitOnColon ((c :: x) ++ ':' :: y) =
          match splitOnColon (x ++ ':' :: y) with
          | [] => [[c]]
          | g :: gs => if c = ':' then [] :: g :: gs else (c :: g) :: gs := rfl
      rw [h2, ih, h]
      simp only [List.cons_append, splitOnColon, h]
      by_cases hc : c = ':' <;> simp [hc]


theorem checkEnabledAux_hit (m : List (JsStr × Bool)) :
    ∀ (gs1 gs2 : List JsStr) (acc : JsStr), gs1 ≠ [] →
      (mapGet m (acc ++ joinColon gs1)).getD false = true →
      SfdxFalconDebug.checkEnabledAux m (gs1 ++ gs2) acc = true := by
  intro gs1
  induction gs1 with
  | nil => intro _ _ h; exact absurd rfl h
  | cons g gs ih =>
    intro gs2 acc _ hhit
    cases gs with
    | nil =>
      simp only [joinColon] at hhit
      simp [SfdxFalconDebug.checkEnabledAux, hhit]
    | cons g2 gs3 =>
      simp only [joinColon] at hhit
      have hstep : SfdxFalconDebug.checkEnabledAux m ((g :: g2 :: gs3) ++ gs2) acc =
          if (mapGet m (acc ++ g)).getD false then true
          else SfdxFalconDebug.checkEnabledAux m ((g2 :: gs3) ++ gs2) ((acc ++ g) ++ [':']) := rfl
      rw [hstep]
      by_cases hg : (mapGet m (acc ++ g)).getD false = true
      · simp [hg]
      · rw [if_neg hg]
        exact ih gs2 ((acc ++ g) ++ [':']) (by simp)
          (by simpa [List.append_assoc] using hhit)

theorem checkEnabledAux_miss (key : JsStr) :
    ∀ (gs : List JsStr) (acc : JsStr),
      acc.length + (joinColon gs).length < key.length →
      SfdxFalconDebug.checkEnabledAux [(key, true)] gs acc = false := by
  intro gs
  induction gs with
  | nil => intro acc _; rfl
  | cons g gs ih =>
    intro acc hlen
    have hj : g.length ≤ (joinColon (g :: gs)).length := by
      cases gs with
      | nil => simp [joinColon]
      | cons a b => simp [joinColon]
    have hne : ¬ (key = acc ++ g) := by
      intro he
      have : key.length = acc.length + g.length := by simp [he]
      omega
    simp only [SfdxFalconDebug.checkEnabledAux]
    rw [show mapGet [(key, true)] (acc ++ g) = none by simp [mapGet, hne]]
    simp only [Option.getD_none, if_false, Bool.false_eq_true, if_neg]
    cases gs with
    | nil => rfl
    | cons g2 gs2 =>
      have hlen2 : (joinColon (g :: g2 :: gs2)).length =
          g.length + 1 + (joinColon (g2 :: gs2)).length := by
        simp [joinColon]
        omega
      apply ih
      simp only [List.length_append, List.length_cons, List.length_nil]
      omega


/-- C8: debug namespace enablement is prefix-hierarchical.  For colon-free
trim-stable segments (and in fact for any trim-stable namespace strings `a`
and `a:b`), enabling `a` makes `checkEnabled` accept `a`, `a:b` and `a:b:c`,
while enabling only `a:b` on an empty map accepts `a:b` and `a:b:c` but
rejects `a`. -/
theorem checkEnabled_hierarchy (a b c : JsStr)
    (ha : jsTrim a = a) (hab : jsTrim (a ++ ':' :: b) = a ++ ':' :: b) :
    (SfdxFalconDebug.checkEnabled (SfdxFalconDebug.enableDebuggers [] [a]) a = true ∧
     SfdxFalconDebug.checkEnabled (SfdxFalconDebug.enableDebuggers [] [a]) (a ++ ':' :: b) = true ∧
     SfdxFalconDebug.checkEnabled (SfdxFalconDebug.enableDebuggers [] [a]) (a ++ ':' :: (b ++ ':' :: c)) = true) ∧
    (SfdxFalconDebug.checkEnabled (SfdxFalconDebug.enableDebuggers [] [a ++ ':' :: b]) a = false ∧
     SfdxFalconDebug.checkEnabled (SfdxFalconDebug.enableDebuggers [] [a ++ ':' :: b]) (a ++ ':' :: b) = true ∧
     SfdxFalconDebug.checkEnabled (SfdxFalconDebug.enableDebuggers [] [a ++ ':' :: b]) (a ++ ':' :: (b ++ ':' :: c)) = true) := by
  have hm1 : SfdxFalconDebug.enableDebuggers [] [a] = [(a, true)] := by
    simp [SfdxFalconDebug.enableDebuggers, mapSet, ha]
  have hm2 : SfdxFalconDebug.enableDebuggers [] [a ++ ':' :: b] = [(a ++ ':' :: b, true)] := by
    simp [SfdxFalconDebug.enableDebuggers, mapSet, hab]
  have hhitkey : ∀ key : JsStr, (mapGet [(key, true)] key).getD false = true := by
    intro key; simp [mapGet]
  refine ⟨⟨?_, ?_, ?_⟩, ⟨?_, ?_, ?_⟩⟩
  · rw [hm1]
    have := checkEnabledAux_hit [(a, true)] (splitOnColon a) [] []
      (splitOnColon_ne_nil a)
      (by rw [List.nil_append, joinColon_splitOnColon]; exact hhitkey a)
    simpa [SfdxFalconDebug.checkEnabled] using this
  · rw [hm1]
    have := checkEnabledAux_hit [(a, true)] (splitOnColon a) (splitOnColon b) []
      (splitOnColon_ne_nil a)
      (by rw [List.nil_append, joinColon_splitOnColon]; exact hhitkey a)
    simpa [SfdxFalconDebug.checkEnabled, splitOnColon_append] using this
  · rw [hm1]
    have := checkEnabledAux_hit [(a, true)] (splitOnColon a)
      (splitOnColon (b ++ ':' :: c)) []
      (splitOnColon_ne_nil a)
      (by rw [List.nil_append, joinColon_splitOnColon]; exact hhitkey a)
    simpa [SfdxFalconDebug.checkEnabled, splitOnColon_append] using this
  · rw [hm2]
    have := checkEnabledAux_miss (a ++ ':' :: b) (splitOnColon a) []
      (by rw [joinColon_splitOnColon]
          simp only [List.length_nil, List.length_append, List.length_cons, Nat.zero_add]
          omega)
    simpa [SfdxFalconDebug.checkEnabled] using this
  · rw [hm2]
    have := checkEnabledAux_hit [(a ++ ':' :: b, true)] (splitOnColon (a ++ ':' :: b)) [] []
      (splitOnColon_ne_nil _)
      (by rw [List.nil_append, joinColon_splitOnColon]; exact hhitkey _)
    simpa [SfdxFalconDebug.checkEnabled] using this
  · rw [hm2]
    have := checkEnabledAux_hit [(a ++ ':' :: b, true)] (splitOnColon (a ++ ':' :: b))
      (splitOnColon c) []
      (splitOnColon_ne_nil _)
      (by rw [List.nil_append, joinColon_splitOnColon]; exact hhitkey _)
    have hsplit : splitOnColon (a ++ ':' :: (b ++ ':' :: c)) =
        splitOnColon (a ++ ':' :: b) ++ splitOnColon c := by
      rw [splitOnColon_append, splitOnColon_append, splitOnColon_append,
        List.append_assoc]
    rw [SfdxFalconDebug.checkEnabled, hsplit]
    exact this

/-- C8 witness: the theorem instantiated at the namespaces `A`, `B`, `C`. -/
theorem checkEnabled_hierarchy_witness :
    (jsTrim (jstr "A") = jstr "A" ∧
     jsTrim (jstr "A" ++ ':' :: jstr "B") = jstr "A" ++ ':' :: jstr "B") ∧
    SfdxFalconDebug.checkEnabled (SfdxFalconDebug.enableDebuggers [] [jstr "A"])
      (jstr "A" ++ ':' :: (jstr "B" ++ ':' :: jstr "C")) = true ∧
    SfdxFalconDebug.checkEnabled
      (SfdxFalconDebug.enableDebuggers [] [jstr "A" ++ ':' :: jstr "B"])
      (jstr "A") = false :=
  ⟨⟨rfl, rfl⟩,
   (checkEnabled_hierarchy (jstr "A") (jstr "B") (jstr "C") rfl rfl).1.2.2,
   (checkEnabled_hierarchy (jstr "A") (jstr "B") (jstr "C") rfl rfl).2.1⟩

/-- C1: the claim says that an `SfdxFalconError` constructed with a cause
has that cause as its `rootCause`.  In the code the constructor passes the
cause to `Error` as a positional argument that the native constructor
ignores (it is not an options object) and never assigns `this.cause`, so
the outer error has no `cause` property and `rootCause` returns the outer
error itself, not the inner one. -/
theorem rootCause_returns_outer_error :
    SfdxFalconError.rootCause
      (SfdxFalconError.construct (jstr "outer") none (jstr "src")
        (some (SfdxFalconError.construct (jstr "inner")))) =
      SfdxFalconError.construct (jstr "outer") none (jstr "src")
        (some (SfdxFalconError.construct (jstr "inner"))) ∧
    getCause
      (SfdxFalconError.construct (jstr "outer") none (jstr "src")
        (some (SfdxFalconError.construct (jstr "inner")))) = none ∧
    errMessage
      (SfdxFalconError.rootCause
        (SfdxFalconError.construct (jstr "outer") none (jstr "src")
          (some (SfdxFalconError.construct (jstr "inner"))))) = jstr "outer" ∧
    errMessage (SfdxFalconError.construct (jstr "inner")) = jstr "inner" :=
  ⟨rfl, rfl, rfl, rfl⟩

/-- C2: the claim says `stdioToJson` returns `null` without throwing for
buffers with no brace pair and for unparseable brace-bounded fragments.  In
the code a buffer with no brace pair reduces to the empty extract, which
`safeParse` turns into the empty object, so the empty object (not `null`)
is returned; and when the extracted fragment is the literal `null`,
`hasOwnProperty` is called on JS `null` and a `TypeError` escapes.  An
unparseable nonempty fragment does yield `null` (last conjunct). -/
theorem stdioToJson_no_brace_pair_behavior :
    stdioToJson (jstr "") = .ok (.obj []) ∧
    stdioToJson (jstr "abc") = .ok (.obj []) ∧
    stdioToJson (jstr "null\x7b") = .error (typeError "Cannot read properties of null") ∧
    stdioToJson (jstr "ab\x7bcd") = .ok .null :=
  ⟨rfl, rfl, rfl, rfl⟩

/-- C3: the claim's first concrete case holds — non-JSON stdout yields the
unparseable shape with status 999 and the raw stdout wrapped as the result
(and the embedded constructor model is a total function: every internal
exception is absorbed by the catch, so no secondary error escapes).  The
claim's second case fails: for stdout `(message boom, status 5)` with no
`stack` field, the constructor's JSON search runs on `undefined`, the
resulting `TypeError` is swallowed by the same catch, and the error is
rebuilt as unparseable — status 999, message without `boom`. -/
theorem sfdxCliError_fallback_at_claim_inputs :
    (SfdxCliError.construct (jstr "sf org create") (jstr "not json") (jstr "anything")).cliError.result
      = .obj [(jstr "rawResult", .str (jstr "not json"))] ∧
    (SfdxCliError.construct (jstr "sf org create") (jstr "not json") (jstr "anything")).cliError.status
      = jsInt 999 ∧
    (SfdxCliError.construct (jstr "sf org create")
      (jstr "\x7b\"message\":\"boom\",\"status\":5\x7d") (jstr "")).cliError.status = jsInt 999 ∧
    (SfdxCliError.construct (jstr "sf org create")
      (jstr "\x7b\"message\":\"boom\",\"status\":5\x7d") (jstr "")).cliError.name
      = .str (jstr "UnparseableCliError") ∧
    errMessage (SfdxCliError.construct (jstr "sf org create")
      (jstr "\x7b\"message\":\"boom\",\"status\":5\x7d") (jstr "")).base
      = jstr "Unknown CLI Error. Unparseable CLI Error (see \x27cliError.result.rawResult\x27 for raw error)" :=
  ⟨rfl, rfl, rfl, rfl, rfl⟩

/-- C5: the claim says a non-empty stderr buffer without a newline yields
the whole buffer as the message.  The code computes
`substring(0, indexOf(newline))`, and `indexOf` is `-1` without a newline,
so the message is the empty string; with a newline the first line is used,
and with empty buffers the synthesized message appears. -/
theorem shellError_message_selection_behavior :
    (ShellError.construct (.str (jstr "some-command")) (jsInt 1) .null
      (.str (jstr "boom"))).shellError.message = .str [] ∧
    errMessage (ShellError.construct (.str (jstr "some-command")) (jsInt 1) .null
      (.str (jstr "boom"))).base = [] ∧
    (ShellError.construct (.str (jstr "some-command")) (jsInt 1) .null
      (.str (jstr "boom\nmore"))).shellError.message = .str (jstr "boom") ∧
    (ShellError.construct (.str (jstr "some-command")) (jsInt 1) .null
      (.str [])).shellError.message
      = .str (jstr "Unknown Shell Error (code=1, signal=null)") :=
  ⟨rfl, rfl, rfl, rfl⟩

/-- C6: `throwOnNullInvalidObject` raises exactly when `isNullInvalidObject`
reports the argument invalid — but the raised value is never the claimed
`SfdxFalconError`: the message builder `errMsgNullInvalidObject` reads the
undefined identifier `excludeArray`, so a `ReferenceError` escapes on every
invalid argument (in particular on `null` and non-object arguments). -/
theorem throwOnNullInvalidObject_raises_ReferenceError :
    (∀ (arg : JsValue) (ns : JsStr) (an : JsValue) (ea : Bool),
      throwOnNullInvalidObject arg ns an (.bool ea) =
        (if isNullInvalidObject arg ea then
          .error (.plain (jstr "ReferenceError") (jstr "excludeArray is not defined") none)
        else .ok ())) ∧
    isFalconError
      (.plain (jstr "ReferenceError") (jstr "excludeArray is not defined") none) = false := by
  constructor
  · intro arg ns an ea
    have hco : (if jsTypeof (JsValue.bool ea) = "boolean" then JsValue.bool ea
        else JsValue.bool false) = JsValue.bool ea := by simp [jsTypeof]
    simp only [throwOnNullInvalidObject, errMsgNullInvalidObject, hco]
  · rfl

/-- C7 counterexample: the claim says the wrapped non-Error value is
attached as `detail.unknownObj`; the code attaches it as `data.unknownObj`
and leaves `detail` as the empty object, so `detail.unknownObj` is
`undefined` at the concrete input 42. -/
theorem wrap_unknown_not_in_detail :
    jsGetOwnD (errDetail (SfdxFalconError.wrap (.val (jsInt 42)) (jstr "src")))
      (jstr "unknownObj") = .undefined ∧
    errDetail (SfdxFalconError.wrap (.val (jsInt 42)) (jstr "src")) = .obj [] ∧
    errData (SfdxFalconError.wrap (.val (jsInt 42)) (jstr "src"))
      = .obj [(jstr "unknownObj", jsInt 42)] :=
  ⟨rfl, rfl, rfl⟩

/-- C7 (amended): wrapping a value that is not an Error produces a generic
structured error with the original attached as `data.unknownObj` (not
`detail.unknownObj`) and an empty `detail`; wrapping an `SfdxFalconError`
returns it unchanged, so wrapping twice equals wrapping once. -/
theorem wrap_data_attachment_and_idempotence :
    (∀ (v : JsValue) (s : JsStr),
      errData (SfdxFalconError.wrap (.val v) s) = .obj [(jstr "unknownObj", v)] ∧
      errDetail (SfdxFalconError.wrap (.val v) s) = .obj []) ∧
    (∀ (x : JsAny) (s1 s2 : JsStr),
      SfdxFalconError.wrap (.err (SfdxFalconError.wrap x s1)) s2 =
        SfdxFalconError.wrap x s1) := by
  constructor
  · intro v s
    exact ⟨rfl, rfl⟩
  · intro x s1 s2
    cases x with
    | val v => rfl
    | err e => cases e <;> rfl

/-- C9: constructing a `TaskRunner` while the singleton slot holds an
instance throws before any state is mutated — the whole global state
(singleton slot, the held instance, its task list and shared context) after
the failed construction equals the state before it — and every successful
construction installs the new instance into the slot. -/
theorem taskRunner_singleton_guard :
    (∀ (opts : JsValue) (g : TRGlobal) (i : TaskRunnerInst), g.trInstance = some i →
      TaskRunner.construct opts g =
        (.error (SfdxFalconError.construct
          (jstr "An instance of TaskRunner already exists. Use TaskRunner.getInstance() instead of new TaskRunner().")
          (some (jstr "TaskRunner Error"))), g)) ∧
    (∀ (opts : JsValue) (g : TRGlobal) (inst : TaskRunnerInst) (g2 : TRGlobal),
      TaskRunner.construct opts g = (.ok inst, g2) → g2.trInstance = some inst) := by
  constructor
  · intro opts g i h
    simp [TaskRunner.construct, h]
  · intro opts g inst g2 h
    unfold TaskRunner.construct at h
    by_cases hg : g.trInstance.isSome
    · rw [if_pos hg] at h
      simp at h
    · rw [if_neg hg] at h
      simp only [Prod.mk.injEq, Except.ok.injEq] at h
      obtain ⟨h1, h2⟩ := h
      rw [← h2, ← h1]

/-- C9 witness: a failed second construction against a populated slot
leaves the state unchanged, and the first construction installed the
instance (both obtained from the theorem at concrete states). -/
theorem taskRunner_singleton_guard_witness :
    trGlobalExample.trInstance = some taskRunnerExample ∧
    TaskRunner.construct .undefined trGlobalExample =
      (.error (SfdxFalconError.construct
        (jstr "An instance of TaskRunner already exists. Use TaskRunner.getInstance() instead of new TaskRunner().")
        (some (jstr "TaskRunner Error"))), trGlobalExample) ∧
    TaskRunner.construct .undefined { trInstance := none } =
      (.ok taskRunnerExample, trGlobalExample) ∧
    trGlobalExample.trInstance = some taskRunnerExample :=
  ⟨rfl,
   taskRunner_singleton_guard.1 .undefined trGlobalExample taskRunnerExample rfl,
   rfl,
   taskRunner_singleton_guard.2 .undefined { trInstance := none } taskRunnerExample
     trGlobalExample rfl⟩

theorem objGet_objInsert_self (m : List (JsStr × JsValue)) (k : JsStr) (v : JsValue) :
    objGet (objInsert m k v) k = some v := by
  induction m with
  | nil => simp [objInsert, objGet]
  | cons kv rest ih =>
    obtain ⟨k1, v1⟩ := kv
    by_cases h : k1 = k
    · simp [objInsert, objGet, h]
    · simp [objInsert, objGet, h, ih]

theorem objGet_objInsert_ne (m : List (JsStr × JsValue)) (k k2 : JsStr) (v : JsValue)
    (h : k ≠ k2) : objGet (objInsert m k v) k2 = objGet m k2 := by
  induction m with
  | nil => simp [objInsert, objGet, h]
  | cons kv rest ih =>
    obtain ⟨k1, v1⟩ := kv
    by_cases h1 : k1 = k
    · subst h1
      simp [objInsert, objGet, h]
    · simp [objInsert, objGet, h1, ih]

theorem objGet_eq_none_of_not_mem (m : List (JsStr × JsValue)) (k : JsStr)
    (h : k ∉ m.map Prod.fst) : objGet m k = none := by
  induction m with
  | nil => rfl
  | cons kv rest ih =>
    obtain ⟨k1, v1⟩ := kv
    simp only [List.map_cons, List.mem_cons, not_or] at h
    have hk : k1 ≠ k := fun he => h.1 he.symm
    simp [objGet, hk, ih h.2]

/-- The own property named `k` of the object `fs` spread over `init`: the
value from `fs` when present, the one from `init` otherwise (for field
lists with distinct keys, the only ones a JS object can hold). -/
theorem objGet_spread_foldl (fs : List (JsStr × JsValue)) :
    ∀ (init : List (JsStr × JsValue)) (k : JsStr), (fs.map Prod.fst).Nodup →
    objGet (fs.foldl (fun acc kv => objInsert acc kv.1 kv.2) init) k =
      ((objGet fs k).map some).getD (objGet init k) := by
  induction fs with
  | nil => intro init k _; rfl
  | cons kv rest ih =>
    intro init k hnd
    obtain ⟨k1, v1⟩ := kv
    simp only [List.map_cons, List.nodup_cons] at hnd
    obtain ⟨hnotin, hnd2⟩ := hnd
    simp only [List.foldl_cons]
    rw [ih (objInsert init k1 v1) k hnd2]
    by_cases hk : k1 = k
    · subst hk
      rw [objGet_eq_none_of_not_mem rest k1 hnotin]
      simp [objGet, objGet_objInsert_self]
    · simp [objGet, hk, objGet_objInsert_ne init k1 k v1 hk]

/-- A successful `throwOnNullInvalidObject` check with `excludeArray` true
means the argument was a plain object. -/
theorem throwOnNullInvalidObject_ok_obj (arg : JsValue) (ns : JsStr) (an : JsValue)
    (h : throwOnNullInvalidObject arg ns an (.bool true) = .ok ()) :
    ∃ fs, arg = .obj fs := by
  have hco : (if jsTypeof (JsValue.bool true) = "boolean" then JsValue.bool true
      else JsValue.bool false) = JsValue.bool true := by simp [jsTypeof]
  simp only [throwOnNullInvalidObject, errMsgNullInvalidObject, hco] at h
  by_cases hp : isNullInvalidObject arg true = true
  · rw [if_pos hp] at h
    simp at h
  · cases arg
    all_goals try (simp [isNullInvalidObject, isInvalidObject, jsTypeof] at hp)
    exact ⟨_, rfl⟩

theorem truthy_spread_default (dflt fs : List (JsStr × JsValue))
    (k : JsStr) (hnd : (fs.map Prod.fst).Nodup)
    (hd : objGet dflt k = some (.bool false)) :
    truthy (jsGetOwnD (jsSpread (.obj dflt) (.obj fs)) k) =
      truthy (jsGetOwnD (.obj fs) k) := by
  simp only [jsSpread, jsGetOwnD]
  rw [objGet_spread_foldl fs dflt k hnd]
  cases hfk : objGet fs k with
  | some v => simp
  | none => simp [hd, truthy]

/-- C10: for every successfully constructed `SfdxTask` from a well-formed
options object, the fields `suppressErrors`, `renderStdioOnError` and
`concurrent` are strictly boolean values: `true` exactly when the
corresponding option value was truthy, `false` when it was falsy or
omitted. -/
theorem sfdxTask_policy_flags_strict_booleans :
    ∀ (title cmd opts : JsValue) (task : SfdxTaskModel),
      objKeysNodup opts →
      SfdxTask.construct title cmd opts = .ok task →
      task.suppressErrors = .bool (truthy (jsGetOwnD opts (jstr "suppressErrors"))) ∧
      task.renderStdioOnError = .bool (truthy (jsGetOwnD opts (jstr "renderStdioOnError"))) ∧
      task.concurrent = .bool (truthy (jsGetOwnD opts (jstr "concurrent"))) := by
  intro title cmd opts task hnd h
  unfold SfdxTask.construct at h
  simp only [Bind.bind, Except.bind, Pure.pure, Except.pure] at h
  split at h
  · exfalso; simp at h
  · split at h
    · exfalso; simp at h
    · split at h
      · exfalso; simp at h
      · rename_i x3 u3 heq3
        obtain ⟨fs, hfs⟩ := throwOnNullInvalidObject_ok_obj opts _ _
          (by cases u3; exact heq3)
        subst hfs
        have hnd2 : (fs.map Prod.fst).Nodup := hnd
        iterate 5 (all_goals (try split at h))
        all_goals
          (first
            | (exfalso; simp at h; done)
            | (simp only [Except.ok.injEq] at h
               subst h
               exact ⟨congrArg JsValue.bool (truthy_spread_default _ fs _ hnd2 rfl),
                      congrArg JsValue.bool (truthy_spread_default _ fs _ hnd2 rfl),
                      congrArg JsValue.bool (truthy_spread_default _ fs _ hnd2 rfl)⟩))

/-- C10 witness: the theorem applied at a concrete task whose
`suppressErrors` option is the truthy number 1. -/
theorem sfdxTask_policy_flags_witness :
    objKeysNodup sfdxTaskOptsExample ∧
    SfdxTask.construct (.str (jstr "t")) (.str (jstr "sf org list")) sfdxTaskOptsExample
      = .ok sfdxTaskExample ∧
    (sfdxTaskExample.suppressErrors
        = .bool (truthy (jsGetOwnD sfdxTaskOptsExample (jstr "suppressErrors"))) ∧
     sfdxTaskExample.renderStdioOnError
        = .bool (truthy (jsGetOwnD sfdxTaskOptsExample (jstr "renderStdioOnError"))) ∧
     sfdxTaskExample.concurrent
        = .bool (truthy (jsGetOwnD sfdxTaskOptsExample (jstr "concurrent")))) :=
  ⟨by simp [objKeysNodup, sfdxTaskOptsExample], rfl,
   sfdxTask_policy_flags_strict_booleans (.str (jstr "t")) (.str (jstr "sf org list"))
     sfdxTaskOptsExample sfdxTaskExample
     (by simp [objKeysNodup, sfdxTaskOptsExample]) rfl⟩

/-- C4 counterexample: for a parsed payload with no `result` field whose
`stack` string contains an embedded JSON object, the claim says that the
embedded object becomes the structured result.  The code instead assigns
the found object to the payload's own `stack` property and wraps the whole
payload as the raw result, so the structured result has a `rawResult` key
and no `a` key. -/
theorem sfdxCliError_found_stack_json_not_used_as_result :
    (SfdxCliError.construct (jstr "sf x")
      (jstr "\x7b\"message\":\"m\",\"stack\":\"xx\x7b\\\"a\\\":1\x7dyy\"\x7d") (jstr "")).cliError.result
      = .obj [(jstr "rawResult",
          .obj [(jstr "message", .str (jstr "m")),
                (jstr "stack", .obj [(jstr "a", jsInt 1)])])] ∧
    jsGetOwnD (SfdxCliError.construct (jstr "sf x")
      (jstr "\x7b\"message\":\"m\",\"stack\":\"xx\x7b\\\"a\\\":1\x7dyy\"\x7d") (jstr "")).cliError.result
      (jstr "a") = .undefined :=
  ⟨rfl, rfl⟩

/-- C4 (amended): for a stdout buffer that parses to a JSON object, a
truthy `result` field is used directly as the structured result; otherwise,
when the payload has a string `stack` in which the JSON search finds a
truthy value, that value replaces the payload's `stack` property and the
structured result wraps the modified payload as `rawResult`; when the
search finds no truthy value the unmodified payload is wrapped; and when
the payload has no `stack` at all the search throws, the catch rebuilds
the error, and the structured result wraps the raw stdout string. -/
theorem sfdxCliError_result_policy
    (cmd sd se : JsStr) (fs : List (JsStr × JsValue))
    (hparse : jsonParse sd = some (.obj fs)) :
    (∀ r, objGet fs (jstr "result") = some r → truthy r = true →
      (SfdxCliError.construct cmd sd se).cliError.result = r) ∧
    (∀ st fj, truthy ((objGet fs (jstr "result")).getD .undefined) = false →
      objGet fs (jstr "stack") = some (.str st) →
      findJson st = .ok fj → truthy fj = true →
      (SfdxCliError.construct cmd sd se).cliError.result =
        .obj [(jstr "rawResult", .obj (objInsert fs (jstr "stack") fj))]) ∧
    (∀ st fj, truthy ((objGet fs (jstr "result")).getD .undefined) = false →
      objGet fs (jstr "stack") = some (.str st) →
      findJson st = .ok fj → truthy fj = false →
      (SfdxCliError.construct cmd sd se).cliError.result =
        .obj [(jstr "rawResult", .obj fs)]) ∧
    (truthy ((objGet fs (jstr "result")).getD .undefined) = false →
      objGet fs (jstr "stack") = none →
      (SfdxCliError.construct cmd sd se).cliError.result =
        .obj [(jstr "rawResult", .str sd)]) := by
  refine ⟨?_, ?_, ?_, ?_⟩
  · intro r hr htr
    simp only [SfdxCliError.construct, SfdxCliError.tryParse, hparse, Bind.bind,
      Except.bind, Pure.pure, Except.pure, jsGetProp, hr, Option.getD_some, htr,
      if_true, if_pos]
  · intro st fj hres hst hfj htr
    simp only [SfdxCliError.construct, SfdxCliError.tryParse, hparse, Bind.bind,
      Except.bind, Pure.pure, Except.pure, jsGetProp, hres, hst, Option.getD_some,
      findJsonOn, hfj, htr, jsSetProp, Bool.false_eq_true, if_false, if_true]
  · intro st fj hres hst hfj htr
    simp only [SfdxCliError.construct, SfdxCliError.tryParse, hparse, Bind.bind,
      Except.bind, Pure.pure, Except.pure, jsGetProp, hres, hst, Option.getD_some,
      findJsonOn, hfj, htr, jsSetProp, Bool.false_eq_true, if_false, if_true]
  · intro hres hst
    simp only [SfdxCliError.construct, SfdxCliError.tryParse, hparse, Bind.bind,
      Except.bind, Pure.pure, Except.pure, jsGetProp, hres, hst, Option.getD_none,
      findJsonOn, Bool.false_eq_true, if_false, if_true]

/-- C4 witness: the amended theorem's embedded-stack clause applied at the
concrete payload whose stack holds an embedded JSON object. -/
theorem sfdxCliError_result_policy_witness :
    jsonParse (jstr "\x7b\"message\":\"m\",\"stack\":\"xx\x7b\\\"a\\\":1\x7dyy\"\x7d")
      = some (.obj [(jstr "message", .str (jstr "m")),
                    (jstr "stack", .str (jstr "xx\x7b\"a\":1\x7dyy"))]) ∧
    (SfdxCliError.construct (jstr "sf x")
      (jstr "\x7b\"message\":\"m\",\"stack\":\"xx\x7b\\\"a\\\":1\x7dyy\"\x7d") (jstr "")).cliError.result
      = .obj [(jstr "rawResult",
          .obj (objInsert
            [(jstr "message", .str (jstr "m")),
             (jstr "stack", .str (jstr "xx\x7b\"a\":1\x7dyy"))]
            (jstr "stack") (.obj [(jstr "a", jsInt 1)])))] :=
  ⟨rfl,
   (sfdxCliError_result_policy (jstr "sf x")
      (jstr "\x7b\"message\":\"m\",\"stack\":\"xx\x7b\\\"a\\\":1\x7dyy\"\x7d") (jstr "")
      [(jstr "message", .str (jstr "m")),
       (jstr "stack", .str (jstr "xx\x7b\"a\":1\x7dyy"))] rfl).2.1
     (jstr "xx\x7b\"a\":1\x7dyy") (.obj [(jstr "a", jsInt 1)]) rfl rfl rfl rfl⟩
